import Mathlib

/-!
Verification development for the SME price-transfer support assistant.

The development shallowly embeds the conversational core of the repository:

* the orchestrator's mode detection `_detect_mode` (docs/ARCHITECTURE.md);
* the streaming-chat client loop `handleSend`, the cancellation handler
  `handleStop` and the history-clear handler `handleClear`
  (frontend/src/App.tsx);
* the tool-modal validation `validate` / `handleSubmit`
  (frontend/src/components/ToolModal.tsx) and the cost-analysis submission
  guard `handleCostAnalysisSubmit` (frontend/src/App.tsx);
* the modal configuration table (frontend/src/config/modal-config.ts).

The backend HTTP server (api/main.py) and the agent implementation are not
part of the enumerable source; where a property is decided by that missing
code, the corresponding definition is modelled from the specification and is
marked `Modelled from the spec:` in its doc comment.

JavaScript / Python primitives are embedded explicitly: string containment
(`kw in s`) as `strContains`, JS truthiness of optional strings and the
`x || y` idiom as `jsOrStr` / `optStrTruthy`, `parseFloat` as an abstract
`String → Option ℚ` (with `none` playing the role of `NaN`).
-/

namespace PriceTransfer

/-! ### String primitives -/

/-- Boolean test that `kw` is a prefix of `l` (character lists). -/
def listPrefixOf : List Char → List Char → Bool
  | [], _ => true
  | _ :: _, [] => false
  | a :: as, b :: bs => a == b && listPrefixOf as bs

/-- Boolean test that `kw` occurs contiguously inside `l` (character lists). -/
def listInfixOf (kw : List Char) : List Char → Bool
  | [] => listPrefixOf kw []
  | b :: bs => listPrefixOf kw (b :: bs) || listInfixOf kw bs

/-- Embeds the Python substring test `kw in hay` (and JS `includes`). -/
def strContains (hay kw : String) : Bool :=
  listInfixOf kw.data hay.data

/-- Embeds the JS `startsWith` test used on stream lines. -/
def strStartsWith (hay kw : String) : Bool :=
  listPrefixOf kw.data hay.data

/-- Embeds JS `s.slice(n)`: drop the first `n` characters. -/
def strDrop (s : String) (n : Nat) : String :=
  ⟨s.data.drop n⟩

/-- Embeds Python `xs[-n:]`: the last `n` elements of a list. -/
def lastN (n : Nat) (xs : List α) : List α :=
  xs.drop (xs.length - n)

/-- Embeds the JS idiom `x || d` on an optional string field: `undefined`
and the empty string are falsy and give the default. -/
def jsOrStr (x : Option String) (d : String) : String :=
  match x with
  | none => d
  | some s => if s = "" then d else s

/-- Embeds JS `x || null` on an optional string field. -/
def jsOrNull (x : Option String) : Option String :=
  match x with
  | none => none
  | some s => if s = "" then none else some s

/-- Whitespace as stripped by JS `trim()` (the kinds that occur here). -/
def isWhite (c : Char) : Bool :=
  c == ' ' || c == '\t' || c == '\n' || c == '\r'

/-- Embeds JS `s.trim()` on character lists. -/
def strTrim (s : String) : String :=
  ⟨((s.data.dropWhile isWhite).reverse.dropWhile isWhite).reverse⟩

/-- JS truthiness of an optional string (`undefined` and `""` are falsy). -/
def optStrTruthy : Option String → Bool
  | none => false
  | some s => !(s == "")

/-- JS truthiness of an optional boolean. -/
def optBoolTruthy : Option Bool → Bool
  | none => false
  | some b => b

/-! ### Mode classifier (docs/ARCHITECTURE.md, `_detect_mode`) -/

/-- The fixed specialist keyword set of `_detect_mode`
(docs/ARCHITECTURE.md, `keywords_mode2`). -/
def keywords_mode2 : List String :=
  ["値上げ", "価格転嫁", "コスト増", "買いたたき", "下請法",
   "原材料高騰", "人件費アップ", "赤字受注", "取引条件", "見積もり"]

/-- Embeds `_detect_mode` (docs/ARCHITECTURE.md).  The underlying model is
abstracted as `llm`, mapping the user utterance and the last five history
turns (`session.history[-5:]`) to a parsed confidence; the function returns
`"mode2"` (the price-transfer specialist) on a keyword hit without consulting
`llm`, otherwise `"mode2"` iff the confidence exceeds `0.7`, else `"mode1"`
(general advice). -/
def detect_mode (llm : String → List String → ℚ)
    (user_input : String) (history : List String) : String :=
  if keywords_mode2.any (fun kw => strContains user_input kw) then "mode2"
  else if llm user_input (lastN 5 history) > 7/10 then "mode2" else "mode1"

/-- Modelled from the spec: the classifier wrapper in the backend agent code
(absent from the enumerable source) that guards the model-assisted fallback,
per §4.1 "if the model-assisted fallback call fails (provider error/timeout),
default to `general`".  The fallible model call is modelled as returning
`Option ℚ`, with `none` for a provider error or timeout. -/
def detect_mode_safe (llm : String → List String → Option ℚ)
    (user_input : String) (history : List String) : String :=
  if keywords_mode2.any (fun kw => strContains user_input kw) then "mode2"
  else
    match llm user_input (lastN 5 history) with
    | none => "mode1"
    | some c => if c > 7/10 then "mode2" else "mode1"

/-- C1: `classify` follows the two-step algorithm in priority order: on a
keyword hit it returns the specialist mode (`"mode2"`) deterministically and
independently of the model and the history; otherwise it returns the
specialist mode iff the model's parsed confidence over the last five history
turns exceeds the fixed `0.7` threshold, else the general mode (`"mode1"`). -/
theorem detect_mode_two_step (llm llm2 : String → List String → ℚ)
    (u : String) (h h2 : List String) :
    (keywords_mode2.any (fun kw => strContains u kw) = true →
        detect_mode llm u h = "mode2" ∧
        detect_mode llm u h = detect_mode llm2 u h2) ∧
    (keywords_mode2.any (fun kw => strContains u kw) = false →
        detect_mode llm u h =
          if llm u (lastN 5 h) > 7/10 then "mode2" else "mode1") := by
  constructor
  · intro hk
    simp [detect_mode, hk]
  · intro hk
    simp [detect_mode, hk]

/-- Witness for `detect_mode_two_step` at a concrete keyword-bearing
utterance and two distinct model oracles. -/
theorem detect_mode_two_step_witness :
    keywords_mode2.any (fun kw => strContains "値上げの相談" kw) = true ∧
    detect_mode (fun _ _ => 0) "値上げの相談" [] = "mode2" ∧
    detect_mode (fun _ _ => 0) "値上げの相談" [] =
      detect_mode (fun _ _ => 1) "値上げの相談" ["過去の発言"] := by
  refine ⟨by decide, ?_⟩
  have h := (detect_mode_two_step (fun _ _ => 0) (fun _ _ => 1)
    "値上げの相談" [] ["過去の発言"]).1 (by decide)
  exact ⟨h.1, h.2⟩

/-- C8: when the model-assisted fallback is reached (no keyword matched) and
the model call fails, classification returns the general mode rather than
propagating the failure, so a classifier failure never fails the turn. -/
theorem detect_mode_failure_defaults_to_general
    (llm : String → List String → Option ℚ) (u : String) (h : List String)
    (hkw : keywords_mode2.any (fun kw => strContains u kw) = false)
    (hfail : llm u (lastN 5 h) = none) :
    detect_mode_safe llm u h = "mode1" := by
  simp [detect_mode_safe, hkw, hfail]

/-- Witness for `detect_mode_failure_defaults_to_general` with an always
failing model oracle on a keyword-free utterance. -/
theorem detect_mode_failure_defaults_to_general_witness :
    keywords_mode2.any (fun kw => strContains "こんにちは" kw) = false ∧
    detect_mode_safe (fun _ _ => none) "こんにちは" [] = "mode1" :=
  ⟨by decide,
   detect_mode_failure_defaults_to_general (fun _ _ => none) "こんにちは" []
     (by decide) rfl⟩

/-! ### Client chat state (frontend/src/App.tsx) -/

/-- A chat message as held in the React `messages` state.  Optional `images`
and `pdfs` arrays are modelled with `[]` standing for `undefined`;
`inlineFormType` is `true` exactly when the message carries the inline cost
form (`inlineFormType: 'cost_form'`). -/
structure Msg where
  role : String
  content : String
  images : List String
  pdfs : List String
  inlineFormType : Bool
  formSubmitted : Bool
deriving DecidableEq

/-- A parsed server-sent `ChatEvent` (interface `ChatEvent` in App.tsx).
Absent JSON fields are `none`. -/
structure ChatEvent where
  type : String
  data : Option String := none
  tool : Option String := none
  show_modal : Option Bool := none
  modal_type : Option String := none
  step : Option String := none
  mode : Option String := none
  content : Option String := none
  error : Option String := none
  status : Option String := none
  message : Option String := none
deriving DecidableEq

/-- The mutable state read and written by the `handleSend` streaming loop:
React state (`messages`, `currentStatus`, `currentMode`, `currentStep`,
modal flags), the refs (`currentResponseRef`, `currentImagesRef`,
`currentPdfsRef`) and the loop locals (`hasAddedAssistantMessage`,
`formMessageAdded`, `contentMessageIndex`, with `none` for `-1`). -/
structure TurnState where
  messages : List Msg
  currentResponse : String
  currentImages : List String
  currentPdfs : List String
  hasAddedAssistantMessage : Bool
  formMessageAdded : Bool
  contentMessageIndex : Option Nat
  currentStatus : String
  currentMode : Option String
  currentStep : Option String
  showCostAnalysisModal : Bool
  activeModalType : Option String
deriving DecidableEq

/-- An ordinary assistant message as built by the loop (no inline form). -/
def mkAssistant (content : String) (imgs pdfs : List String) : Msg :=
  { role := "assistant", content := content, images := imgs, pdfs := pdfs,
    inlineFormType := false, formSubmitted := false }

/-- A user message as appended by `handleSend`. -/
def mkUser (content : String) : Msg :=
  { role := "user", content := content, images := [], pdfs := [],
    inlineFormType := false, formSubmitted := false }

/-- The inline cost-form prompt message appended on `tool_use`/`show_modal`
for the `ideal_pricing` modal type. -/
def costFormMessage : Msg :=
  { role := "assistant",
    content := "原価計算を行います。以下のフォームに情報を入力してください。",
    images := [], pdfs := [], inlineFormType := true, formSubmitted := false }

/-- Embeds `TOOL_TO_MODAL_MAP` (frontend/src/config/modal-config.ts). -/
def TOOL_TO_MODAL_MAP (tool : String) : Option String :=
  if tool = "calculate_cost_impact" then some "ideal_pricing"
  else if tool = "analyze_cost_impact" then some "cost_comparison"
  else none

/-- Embeds `contentMessageIndex >= 0 ? contentMessageIndex :
newMessages.length - 1`. -/
def targetIdx (s : TurnState) : Nat :=
  match s.contentMessageIndex with
  | some i => i
  | none => s.messages.length - 1

/-- Embeds the guard `newMessages[i]?.inlineFormType` (JS truthiness of an
optional field of an optional element). -/
def isFormAt (ms : List Msg) (i : Nat) : Bool :=
  match ms.get? i with
  | some m => m.inlineFormType
  | none => false

/-- The `content` event branch of `handleSend`. -/
def processContent (s : TurnState) (e : ChatEvent) : TurnState :=
  let cr := jsOrStr e.data ""
  let s := { s with currentResponse := cr }
  if s.formMessageAdded && s.contentMessageIndex.isNone then
    { s with
      contentMessageIndex := some s.messages.length,
      messages := s.messages ++ [mkAssistant cr s.currentImages s.currentPdfs],
      hasAddedAssistantMessage := true }
  else if !s.hasAddedAssistantMessage then
    { s with
      hasAddedAssistantMessage := true,
      contentMessageIndex := some s.messages.length,
      messages := s.messages ++ [mkAssistant cr s.currentImages s.currentPdfs] }
  else
    let t := targetIdx s
    if isFormAt s.messages t then s
    else { s with
      messages := s.messages.set t (mkAssistant cr s.currentImages s.currentPdfs) }

/-- The `image` event branch of `handleSend`. -/
def processImage (s : TurnState) (e : ChatEvent) : TurnState :=
  if optStrTruthy e.data then
    let imgs := s.currentImages ++ [(e.data).getD ""]
    let s := { s with currentImages := imgs }
    if s.hasAddedAssistantMessage then
      let t := targetIdx s
      if isFormAt s.messages t then s
      else { s with
        messages := s.messages.set t
          (mkAssistant s.currentResponse imgs s.currentPdfs) }
    else s
  else s

/-- The `pdf` event branch of `handleSend`. -/
def processPdf (s : TurnState) (e : ChatEvent) : TurnState :=
  if optStrTruthy e.data then
    let pdfs := s.currentPdfs ++ [(e.data).getD ""]
    let s := { s with currentPdfs := pdfs }
    if s.hasAddedAssistantMessage then
      let t := targetIdx s
      if isFormAt s.messages t then s
      else { s with
        messages := s.messages.set t
          (mkAssistant s.currentResponse s.currentImages pdfs) }
    else s
  else s

/-- The `status` event branch of `handleSend`. -/
def processStatus (s : TurnState) (e : ChatEvent) : TurnState :=
  if e.status == some "none" then { s with currentStatus := "" }
  else { s with currentStatus := jsOrStr e.message "" }

/-- The `tool_use` event branch of `handleSend`. -/
def processToolUse (s : TurnState) (e : ChatEvent) : TurnState :=
  if optStrTruthy e.tool && optBoolTruthy e.show_modal then
    match TOOL_TO_MODAL_MAP ((e.tool).getD "") with
    | some "ideal_pricing" =>
      { s with
        messages := s.messages ++ [costFormMessage],
        formMessageAdded := true,
        hasAddedAssistantMessage := true }
    | _ =>
      if e.tool == some "analyze_cost_impact" then
        { s with showCostAnalysisModal := true }
      else s
  else s

/-- The `show_modal` event branch of `handleSend`. -/
def processShowModal (s : TurnState) (e : ChatEvent) : TurnState :=
  if e.modal_type == some "ideal_pricing" then
    { s with
      messages := s.messages ++ [costFormMessage],
      formMessageAdded := true,
      hasAddedAssistantMessage := true }
  else if optStrTruthy e.modal_type then
    { s with activeModalType := e.modal_type }
  else s

/-- The `done` event branch of `handleSend`: clear the status; when only a
form message was produced and no text accumulated, skip; otherwise append or
overwrite the turn's assistant message with `event.content ||
currentResponseRef.current`. -/
def processDone (s : TurnState) (e : ChatEvent) : TurnState :=
  let s := { s with currentStatus := "" }
  if s.formMessageAdded && strTrim s.currentResponse == "" then s
  else if !s.hasAddedAssistantMessage then
    { s with
      hasAddedAssistantMessage := true,
      messages := s.messages ++
        [mkAssistant (jsOrStr e.content s.currentResponse)
          s.currentImages s.currentPdfs] }
  else
    let t := targetIdx s
    if isFormAt s.messages t then s
    else { s with
      messages := s.messages.set t
        (mkAssistant (jsOrStr e.content s.currentResponse)
          s.currentImages s.currentPdfs) }

/-- The error text `❌ エラー: ${event.error}` (an absent field prints as
the string `undefined` in a JS template literal). -/
def errText (e : ChatEvent) : String :=
  "❌ エラー: " ++ (match e.error with | some s => s | none => "undefined")

/-- The `error` event branch of `handleSend`. -/
def processError (s : TurnState) (e : ChatEvent) : TurnState :=
  if !s.hasAddedAssistantMessage then
    { s with
      hasAddedAssistantMessage := true,
      messages := s.messages ++ [mkAssistant (errText e) [] []] }
  else
    { s with
      messages := s.messages.set (s.messages.length - 1)
        (mkAssistant (errText e) [] []) }

/-- One parsed event applied to the loop state (the `if`/`else if` chain on
`event.type` in `handleSend`). -/
def processEvent (s : TurnState) (e : ChatEvent) : TurnState :=
  if e.type == "content" then processContent s e
  else if e.type == "image" then processImage s e
  else if e.type == "pdf" then processPdf s e
  else if e.type == "status" then processStatus s e
  else if e.type == "mode_update" then { s with currentMode := jsOrNull e.mode }
  else if e.type == "tool_use" then processToolUse s e
  else if e.type == "show_modal" then processShowModal s e
  else if e.type == "step_update" then { s with currentStep := jsOrNull e.step }
  else if e.type == "done" then processDone s e
  else if e.type == "error" then processError s e
  else s

/-- A list of events applied in order. -/
def processEvents (s : TurnState) (es : List ChatEvent) : TurnState :=
  es.foldl processEvent s

/-- One stream line, given the JSON parser as an abstract partial function
(`none` models a `JSON.parse` exception, which the loop catches): only lines
starting with `data: ` are interpreted, and a parse failure leaves the state
unchanged. -/
def processLine (parse : String → Option ChatEvent)
    (s : TurnState) (line : String) : TurnState :=
  if strStartsWith line "data: " then
    match parse (strDrop line 6) with
    | none => s
    | some e => processEvent s e
  else s

/-- The lines of a chunk applied in order. -/
def processLines (parse : String → Option ChatEvent)
    (s : TurnState) (lines : List String) : TurnState :=
  lines.foldl (processLine parse) s

/-- The loop state at the top of `handleSend`, after the refs are reset and
the loop locals are initialised, over an arbitrary prior message list and
component state. -/
def freshTurnState (ms : List Msg) (status : String)
    (mode step : Option String) : TurnState :=
  { messages := ms, currentResponse := "", currentImages := [],
    currentPdfs := [], hasAddedAssistantMessage := false,
    formMessageAdded := false, contentMessageIndex := none,
    currentStatus := status, currentMode := mode, currentStep := step,
    showCostAnalysisModal := false, activeModalType := none }

/-! ### Component-level client state: stop and send (frontend/src/App.tsx) -/

/-- Component state surrounding a turn: the loop state, the `isLoading`
flag, whether an abort controller is installed
(`abortControllerRef.current !== null`), the input box and the session id. -/
structure AppState where
  turn : TurnState
  isLoading : Bool
  abortActive : Bool
  input : String
  sessionId : Option String
deriving DecidableEq

/-- The suffix appended to a partial response by `handleStop`. -/
def stopMarker : String := "\n\n*[応答が停止されました]*"

/-- Embeds `newMessages.length > 0 && newMessages[last].role ===
'assistant'`. -/
def lastIsAssistant (ms : List Msg) : Bool :=
  match ms.get? (ms.length - 1) with
  | some m => m.role == "assistant"
  | none => false

/-- Embeds `handleStop` (App.tsx): abort the stream, clear the loading
flag, and if partial response text has accumulated, overwrite the last
assistant message with the partial text plus a stop marker. -/
def handleStop (s : AppState) : AppState :=
  if s.abortActive then
    let s := { s with abortActive := false, isLoading := false }
    if s.turn.currentResponse == "" then s
    else if lastIsAssistant s.turn.messages then
      { s with turn := { s.turn with
          messages := s.turn.messages.set (s.turn.messages.length - 1)
            (mkAssistant (s.turn.currentResponse ++ stopMarker)
              s.turn.currentImages s.turn.currentPdfs) } }
    else s
  else s

/-- Embeds the entry of `handleSend` (App.tsx): the guard
`!messageToSend.trim() || !sessionId || isLoading` rejects the submission
(`none`, no state change); otherwise the user message is appended (unless
`skipUserMessage`), the refs are reset, `isLoading` is set and an abort
controller installed, and the started state is returned. -/
def handleSendStart (s : AppState) (messageOverride : Option String)
    (skipUserMessage : Bool) : Option AppState :=
  let messageToSend := jsOrStr messageOverride s.input
  if strTrim messageToSend == "" || s.sessionId.isNone || s.isLoading then none
  else
    some { s with
      turn := { s.turn with
        messages :=
          if skipUserMessage then s.turn.messages
          else s.turn.messages ++ [mkUser messageToSend],
        currentResponse := "", currentImages := [], currentPdfs := [] },
      input := if messageOverride.isNone then "" else s.input,
      isLoading := true,
      abortActive := true }

/-! ### C10: stream-line parsing safety -/

/-- C10: only lines starting with `data: ` are interpreted as events; a line
whose payload fails to parse leaves the whole client state unchanged; and
processing a chunk continues with the next line after any line, so a
malformed event never aborts the stream consumer (the embedding is a total
function). -/
theorem stream_line_safety (parse : String → Option ChatEvent)
    (s : TurnState) (line : String) (rest : List String) :
    (strStartsWith line "data: " = false →
        processLine parse s line = s) ∧
    (parse (strDrop line 6) = none →
        processLine parse s line = s) ∧
    processLines parse s (line :: rest) =
      processLines parse (processLine parse s line) rest := by
  refine ⟨?_, ?_, rfl⟩
  · intro hns
    simp [processLine, hns]
  · intro hp
    unfold processLine
    split
    · rw [hp]
    · rfl

/-- Witness for `stream_line_safety`: a non-`data:` line and a `data: ` line
with an unparsable payload both leave a concrete state unchanged. -/
theorem stream_line_safety_witness :
    processLine (fun _ => none) (freshTurnState [] "" none none)
      "event: ping" = freshTurnState [] "" none none ∧
    processLine (fun _ => none) (freshTurnState [] "" none none)
      "data: notjson" = freshTurnState [] "" none none :=
  ⟨(stream_line_safety (fun _ => none) (freshTurnState [] "" none none)
      "event: ping" []).1 (by decide),
   (stream_line_safety (fun _ => none) (freshTurnState [] "" none none)
      "data: notjson" []).2.1 rfl⟩

/-! ### C5: content accumulation and finalization -/

/-- Counterexample to C5 as stated: in a successful turn that only showed
the inline cost form (a `show_modal` event) and accumulated no content text,
the `done` event's content is discarded (`handleSend` skips the `done`
branch), so the final assistant message is the form prompt, not the `done`
event's content `"X"`. -/
theorem done_content_dropped_after_form_only :
    (processEvents (freshTurnState [mkUser "原価計算をしたい"] "" none none)
        [{ type := "show_modal", modal_type := some "ideal_pricing" },
         { type := "done", content := some "X" }]).messages =
      [mkUser "原価計算をしたい", costFormMessage] ∧
    costFormMessage.content ≠ "X" ∧ (mkUser "原価計算をしたい").content ≠ "X" := by
  refine ⟨by decide, by decide, by decide⟩

/-- Clearing the status and fixing the added-message flag do not move the
update target of the `done` branch. -/
theorem targetIdx_update (s : TurnState) (b : Bool) (st : String) :
    targetIdx { s with currentStatus := st, hasAddedAssistantMessage := b } =
      targetIdx s := rfl

/-- C5 (amended): after each `content` event the in-progress assistant text
(`currentResponseRef`) equals that event's data — the text is replaced, not
appended to — and, unless an inline form message was added with no
accumulated content text (in which case `done` is skipped and its content
discarded), the `done` event finalizes the turn's assistant message to the
event's content, falling back to the accumulated text when the event
carries none: it is appended when no assistant message exists yet, and
otherwise overwrites the target message when that is not a form message. -/
theorem content_replaces_and_done_finalizes (s : TurnState) (e : ChatEvent) :
    (e.type = "content" →
        (processEvent s e).currentResponse = jsOrStr e.data "") ∧
    (e.type = "done" →
      (s.formMessageAdded = true → strTrim s.currentResponse ≠ "") →
      ((s.hasAddedAssistantMessage = false →
          (processEvent s e).messages =
            s.messages ++
              [mkAssistant (jsOrStr e.content s.currentResponse)
                s.currentImages s.currentPdfs]) ∧
       (s.hasAddedAssistantMessage = true →
          isFormAt s.messages (targetIdx s) = false →
          (processEvent s e).messages =
            s.messages.set (targetIdx s)
              (mkAssistant (jsOrStr e.content s.currentResponse)
                s.currentImages s.currentPdfs)))) := by
  constructor
  · intro ht
    have hbt : (e.type == "content") = true := by simp [ht]
    simp only [processEvent, hbt, if_pos]
    simp only [processContent]
    split
    · rfl
    · split
      · rfl
      · split
        · rfl
        · rfl
  · intro ht hskip
    have hne : (e.type == "content") = false := by simp [ht]
    have hcond : (s.formMessageAdded && strTrim s.currentResponse == "") = false := by
      cases hf : s.formMessageAdded with
      | false => simp
      | true =>
        have := hskip hf
        simp [this]
    constructor
    · intro hadd
      simp only [processEvent, hne, ht, processDone]
      simp [hcond, hadd]
    · intro hadd hform
      simp only [processEvent, hne, ht, processDone]
      simp [hcond, hadd, hform, targetIdx_update]

/-- Witness for `content_replaces_and_done_finalizes` at concrete states: a
first `content` event sets the in-progress text, and a `done` event carrying
content appends the final assistant message. -/
theorem content_replaces_and_done_finalizes_witness :
    (processEvent (freshTurnState [] "" none none)
        { type := "content", data := some "こんにちは" }).currentResponse =
      "こんにちは" ∧
    (processEvent (freshTurnState [] "" none none)
        { type := "done", content := some "最終回答" }).messages =
      [mkAssistant "最終回答" [] []] := by
  constructor
  · exact ((content_replaces_and_done_finalizes
      (freshTurnState [] "" none none)
      { type := "content", data := some "こんにちは" }).1 rfl).trans (by decide)
  · exact (((content_replaces_and_done_finalizes
      (freshTurnState [] "" none none)
      { type := "done", content := some "最終回答" }).2 rfl
        (by decide)).1 rfl).trans (by decide)

/-! ### C7: cancellation -/

/-- A concrete mid-turn component state: one user message was sent and a
single `content` event has streamed partial text. -/
def exMidTurn : AppState :=
  { turn := processEvents (freshTurnState [mkUser "値上げの相談"] "" none none)
      [{ type := "content", data := some "値上げ交渉では" }],
    isLoading := true, abortActive := true, input := "",
    sessionId := some "s1" }

/-- Counterexample to C7 as stated: cancelling a turn after partial content
has streamed does not restore the pre-turn message list — `handleStop` keeps
the partial assistant message, appending a stop marker to it. -/
theorem cancelled_turn_keeps_partial_message :
    (handleStop exMidTurn).turn.messages =
      [mkUser "値上げの相談",
       mkAssistant ("値上げ交渉では" ++ stopMarker) [] []] ∧
    (handleStop exMidTurn).turn.messages ≠ [mkUser "値上げの相談"] := by
  refine ⟨by decide, by decide⟩

/-- C7 (amended): `handleStop` aborts the in-flight turn and clears the
loading flag; when no partial response text has accumulated the message list
is left exactly as it was, and when partial text has accumulated the last
assistant message is retained, overwritten with the partial text plus the
stop marker (it is not rolled back). -/
theorem handleStop_amended (s : AppState) :
    (s.abortActive = false → handleStop s = s) ∧
    (s.abortActive = true →
      (handleStop s).isLoading = false ∧
      (s.turn.currentResponse = "" →
          (handleStop s).turn.messages = s.turn.messages) ∧
      (s.turn.currentResponse ≠ "" →
          lastIsAssistant s.turn.messages = true →
          (handleStop s).turn.messages =
            s.turn.messages.set (s.turn.messages.length - 1)
              (mkAssistant (s.turn.currentResponse ++ stopMarker)
                s.turn.currentImages s.turn.currentPdfs))) := by
  constructor
  · intro hab
    simp [handleStop, hab]
  · intro hab
    refine ⟨?_, ?_, ?_⟩
    · simp only [handleStop, hab, if_true]
      split
      · rfl
      · split
        · rfl
        · rfl
    · intro hcr
      simp [handleStop, hab, hcr]
    · intro hcr hlast
      have hcrb : (s.turn.currentResponse == "") = false := by
        simp [hcr]
      simp [handleStop, hab, hcrb, hlast]

/-- Witness for `handleStop_amended` at the concrete mid-turn state. -/
theorem handleStop_amended_witness :
    (handleStop exMidTurn).isLoading = false ∧
    (handleStop exMidTurn).turn.messages =
      exMidTurn.turn.messages.set 1
        (mkAssistant ("値上げ交渉では" ++ stopMarker) [] []) := by
  have h := (handleStop_amended exMidTurn).2 (by decide)
  refine ⟨h.1, ?_⟩
  exact (h.2.2 (by decide) (by decide)).trans (by decide)

/-! ### C6: the in-flight guard -/

/-- C6: the in-flight guard of `handleSend`: while a turn is in flight
(`isLoading`) a second submission for the session is rejected — `handleSendStart`
returns `none` and the component state is untouched — and every accepted
submission marks the turn in flight before any event is processed, so a
second turn can never start while one is executing and the messages of two
turns never interleave. -/
theorem second_submission_rejected_while_loading (s : AppState)
    (mo : Option String) (skip : Bool) :
    (s.isLoading = true → handleSendStart s mo skip = none) ∧
    (∀ s2, handleSendStart s mo skip = some s2 → s2.isLoading = true) := by
  constructor
  · intro hl
    simp [handleSendStart, hl]
  · intro s2 h
    simp only [handleSendStart] at h
    split at h
    · exact absurd h (by simp)
    · rw [Option.some.injEq] at h
      rw [← h]

/-- An idle component state with a pending input message. -/
def exIdle : AppState :=
  { turn := freshTurnState [] "" none none, isLoading := false,
    abortActive := false, input := "値上げの相談", sessionId := some "s1" }

/-- The state produced by accepting the submission from `exIdle`. -/
def exStarted : AppState :=
  { turn := { freshTurnState [] "" none none with
      messages := [mkUser "値上げの相談"] },
    isLoading := true, abortActive := true, input := "",
    sessionId := some "s1" }

/-- Witness for `second_submission_rejected_while_loading`: the loading
state rejects, and the idle state accepts into an in-flight state. -/
theorem second_submission_rejected_while_loading_witness :
    handleSendStart { exIdle with isLoading := true } none false = none ∧
    handleSendStart exIdle none false = some exStarted ∧
    exStarted.isLoading = true := by
  have hstart : handleSendStart exIdle none false = some exStarted := by decide
  refine ⟨?_, hstart, ?_⟩
  · exact (second_submission_rejected_while_loading
      { exIdle with isLoading := true } none false).1 rfl
  · exact (second_submission_rejected_while_loading exIdle none false).2
      exStarted hstart

/-! ### C4: tool-argument validation (ToolModal.tsx, App.tsx) -/

/-- Field kinds of the modal configuration (`FieldType`,
frontend/src/config/modal-config.ts). -/
inductive FieldType
  | number
  | percentage
  | text
  | select
deriving DecidableEq

/-- The validation-relevant part of a `FieldConfig`
(frontend/src/config/modal-config.ts); placeholder, suffix and grouping are
presentation only. -/
structure FieldConfig where
  id : String
  label : String
  type : FieldType
  required : Bool
deriving DecidableEq

/-- Embeds `field.type === 'number' || field.type === 'percentage'`. -/
def isNumericField (f : FieldConfig) : Bool :=
  f.type == FieldType.number || f.type == FieldType.percentage

/-- The errors contributed by one field in `validate` (ToolModal.tsx):
a required field that is absent or blank, and a nonempty numeric field whose
value does not parse (`isNaN(parseFloat(value))`).  `parseFloat` is the
abstract `pf`, `none` playing the role of `NaN`; `formData` maps a missing
entry to `""`. -/
def fieldErrors (pf : String → Option ℚ) (formData : String → String)
    (f : FieldConfig) : List String :=
  (if f.required && (formData f.id == "" || strTrim (formData f.id) == "")
    then [f.label ++ "を入力してください"] else [])
  ++ (if !(formData f.id == "") && isNumericField f &&
        (pf (formData f.id)).isNone
    then [f.label ++ "は数値で入力してください"] else [])

/-- Embeds `validate` (ToolModal.tsx): the error list accumulated over the
configured fields, in order. -/
def validate (pf : String → Option ℚ) (fields : List FieldConfig)
    (formData : String → String) : List String :=
  (fields.map (fieldErrors pf formData)).flatten

/-- A submitted form value (`number | string`). -/
inductive FormValue
  | num (q : ℚ)
  | str (s : String)
deriving DecidableEq

/-- Embeds `handleSubmit` (ToolModal.tsx): `none` when validation fails
(`onSubmit` is never invoked, so nothing is dispatched), otherwise the
processed data passed to `onSubmit`, numeric fields going through
`parseFloat(value) || 0`. -/
def handleSubmit (pf : String → Option ℚ) (fields : List FieldConfig)
    (formData : String → String) : Option (List (String × FormValue)) :=
  if !(validate pf fields formData).isEmpty then none
  else some (fields.map (fun f =>
    (f.id,
      if isNumericField f then FormValue.num ((pf (formData f.id)).getD 0)
      else FormValue.str (formData f.id))))

/-- The raw cost-analysis form state (`CostAnalysisData`, App.tsx). -/
structure CostAnalysisData where
  before_sales : String
  before_cost : String
  before_expenses : String
  current_sales : String
  current_cost : String
  current_expenses : String
deriving DecidableEq

/-- Outcome of `handleCostAnalysisSubmit`: either rejected before any
request is posted, or dispatched with the parsed figures. -/
inductive CostSubmitOutcome
  | rejected
  | dispatched (before_sales before_cost before_expenses
      current_sales current_cost current_expenses : ℚ)
deriving DecidableEq

/-- Embeds `parseFloat(x) || 0` (App.tsx): an unparsable value (`NaN`)
becomes `0`. -/
def pfOrZero (pf : String → Option ℚ) (x : String) : ℚ :=
  (pf x).getD 0

/-- Embeds the validation prefix of `handleCostAnalysisSubmit` (App.tsx):
parse all six figures with `parseFloat(x) || 0` and reject — returning
before the POST request — when either sales figure is not positive. -/
def handleCostAnalysisSubmit (pf : String → Option ℚ)
    (d : CostAnalysisData) : CostSubmitOutcome :=
  if pfOrZero pf d.before_sales ≤ 0 ∨ pfOrZero pf d.current_sales ≤ 0 then
    CostSubmitOutcome.rejected
  else
    CostSubmitOutcome.dispatched (pfOrZero pf d.before_sales)
      (pfOrZero pf d.before_cost) (pfOrZero pf d.before_expenses)
      (pfOrZero pf d.current_sales) (pfOrZero pf d.current_cost)
      (pfOrZero pf d.current_expenses)

/-- A flattened list of lists is nonempty as soon as one member list is. -/
theorem join_ne_nil_of_mem {α : Type} {L : List (List α)} {l : List α}
    (hl : l ∈ L) (hne : l ≠ []) : L.flatten ≠ [] := by
  induction L with
  | nil => cases hl
  | cons x xs ih =>
    rw [List.flatten_cons]
    cases hl with
    | head =>
      intro hnil
      exact hne (List.append_eq_nil.mp hnil).1
    | tail _ hmem =>
      intro hnil
      exact ih hmem (List.append_eq_nil.mp hnil).2

/-- C4: arguments violating the declared schema never reach the tool body:
if some configured field is required but missing/blank, or is a numeric
field whose nonempty value does not parse, `handleSubmit` returns `none`
(the `onSubmit` dispatch never runs, so no request and no side effect); and
a cost-analysis submission whose parsed sales figure is not positive is
`rejected` before any request is posted.  Both failures are ordinary return
values of total functions, not exceptions. -/
theorem invalid_args_are_rejected_without_dispatch
    (pf : String → Option ℚ) (fields : List FieldConfig)
    (formData : String → String) (f : FieldConfig) (d : CostAnalysisData) :
    (f ∈ fields →
      ((f.required = true ∧ strTrim (formData f.id) = "") ∨
        (formData f.id ≠ "" ∧ isNumericField f = true ∧
          pf (formData f.id) = none)) →
      handleSubmit pf fields formData = none) ∧
    ((pfOrZero pf d.before_sales ≤ 0 ∨ pfOrZero pf d.current_sales ≤ 0) →
      handleCostAnalysisSubmit pf d = CostSubmitOutcome.rejected) := by
  constructor
  · intro hf hviol
    have herr : fieldErrors pf formData f ≠ [] := by
      rcases hviol with ⟨hreq, htrim⟩ | ⟨hne, hnum, hpf⟩
      · have hc : (f.required &&
            (formData f.id == "" || strTrim (formData f.id) == "")) = true := by
          simp [hreq, htrim]
        unfold fieldErrors
        rw [hc]
        simp
      · have hc : (!(formData f.id == "") && isNumericField f &&
            (pf (formData f.id)).isNone) = true := by
          simp [hne, hnum, hpf]
        unfold fieldErrors
        rw [hc]
        split <;> simp
    have hval : validate pf fields formData ≠ [] :=
      join_ne_nil_of_mem (List.mem_map_of_mem (fieldErrors pf formData) hf) herr
    have hemp : (validate pf fields formData).isEmpty = false := by
      cases hv : validate pf fields formData with
      | nil => exact absurd hv hval
      | cons a l => rfl
    simp [handleSubmit, hemp]
  · intro h
    unfold handleCostAnalysisSubmit
    rw [if_pos h]

/-- The fields of the `ideal_pricing` modal config
(frontend/src/config/modal-config.ts). -/
def idealPricingFields : List FieldConfig :=
  [{ id := "material_cost", label := "材料費",
     type := FieldType.number, required := true },
   { id := "labor_cost", label := "労務費",
     type := FieldType.number, required := true },
   { id := "energy_cost", label := "エネルギー費",
     type := FieldType.number, required := true },
   { id := "overhead", label := "その他経費",
     type := FieldType.number, required := true },
   { id := "material_cost_change", label := "材料費の上昇率",
     type := FieldType.percentage, required := true },
   { id := "labor_cost_change", label := "労務費の上昇率",
     type := FieldType.percentage, required := true },
   { id := "energy_cost_change", label := "エネルギー費の上昇率",
     type := FieldType.percentage, required := true },
   { id := "current_sales", label := "現在の売上高",
     type := FieldType.number, required := false }]

/-- Witness for `invalid_args_are_rejected_without_dispatch`: the real
`ideal_pricing` config with a blank required field is not submitted, and a
cost-analysis form whose sales figure does not parse is rejected. -/
theorem invalid_args_are_rejected_without_dispatch_witness :
    handleSubmit (fun _ => none) idealPricingFields (fun _ => "") = none ∧
    handleCostAnalysisSubmit (fun _ => none)
      { before_sales := "abc", before_cost := "100", before_expenses := "50",
        current_sales := "200", current_cost := "120",
        current_expenses := "60" } = CostSubmitOutcome.rejected := by
  have h := invalid_args_are_rejected_without_dispatch (fun _ => none)
    idealPricingFields (fun _ => "")
    { id := "material_cost", label := "材料費",
      type := FieldType.number, required := true }
    { before_sales := "abc", before_cost := "100", before_expenses := "50",
      current_sales := "200", current_cost := "120",
      current_expenses := "60" }
  exact ⟨h.1 (by decide) (Or.inl ⟨rfl, by decide⟩),
    h.2 (Or.inl (by simp [pfOrZero]))⟩

/-! ### C2: the event-stream protocol (spec-modelled) -/

/-- Typed events of the streaming protocol (spec §4.4). -/
inductive StreamEvent
  | status (label : String)
  | content (text : String)
  | toolUse (tool : String)
  | artifact (locator : String)
  | modeUpdate (mode : String)
  | done (final : String)
  | error (message : String)
deriving DecidableEq

/-- `done` and `error` are the terminal events of a turn. -/
def StreamEvent.isTerminal : StreamEvent → Bool
  | StreamEvent.done _ => true
  | StreamEvent.error _ => true
  | _ => false

/-- An internal transition of the Turn Executor that the Event Emitter
serializes: progress (status, partial content, tool use, artifact, mode
commit) or a failure that moves the turn to `ERROR`. -/
inductive TurnAction
  | note (label : String)
  | text (t : String)
  | tool (name : String)
  | artifactOut (locator : String)
  | modeCommit (m : String)
  | fail (message : String)

/-- Modelled from the spec: the Event Emitter of the backend turn executor
(api/main.py, absent from the enumerable source).  Spec §4.3-4.4: internal
transitions are serialized in generation order into typed events; the first
failure terminates the stream with a single `error` event, and a turn that
runs out of transitions terminates with a single `done` event carrying the
final content.  The returned list is the delivery order. -/
def emitTurn : List TurnAction → String → List StreamEvent
  | [], final => [StreamEvent.done final]
  | TurnAction.fail m :: _, _ => [StreamEvent.error m]
  | TurnAction.note l :: rest, f => StreamEvent.status l :: emitTurn rest f
  | TurnAction.text t :: rest, f => StreamEvent.content t :: emitTurn rest f
  | TurnAction.tool n :: rest, f => StreamEvent.toolUse n :: emitTurn rest f
  | TurnAction.artifactOut l :: rest, f =>
      StreamEvent.artifact l :: emitTurn rest f
  | TurnAction.modeCommit m :: rest, f =>
      StreamEvent.modeUpdate m :: emitTurn rest f

/-- A turn's stream is never empty. -/
theorem emitTurn_ne_nil (script : List TurnAction) (f : String) :
    emitTurn script f ≠ [] := by
  cases script with
  | nil => simp [emitTurn]
  | cons a rest => cases a <;> simp [emitTurn]

/-- C2: for every turn, the emitted stream delivers events in generation
order (the list order of `emitTurn`), contains exactly one terminal event —
so `done` and `error` are mutually exclusive — the terminal event is the
last event of the turn, and no event of the turn follows it (every event
before the last is non-terminal). -/
theorem stream_terminal_event_invariants (script : List TurnAction)
    (final : String) :
    (emitTurn script final).countP (fun e => e.isTerminal) = 1 ∧
    ((emitTurn script final).dropLast.all fun e => !e.isTerminal) = true ∧
    ((emitTurn script final).getLast?.map fun e => e.isTerminal) =
      some true := by
  induction script with
  | nil => simp [emitTurn, StreamEvent.isTerminal]
  | cons a rest ih =>
    obtain ⟨b, l, hbl⟩ := List.exists_cons_of_ne_nil (emitTurn_ne_nil rest final)
    cases a <;>
      first
      | (simp [emitTurn, StreamEvent.isTerminal]; done)
      | (obtain ⟨h1, h2, h3⟩ := ih
         simp only [emitTurn]
         rw [hbl] at h1 h2 h3 ⊢
         refine ⟨?_, ?_, ?_⟩
         · rw [List.countP_cons, h1]
           simp [StreamEvent.isTerminal]
         · rw [List.dropLast_cons₂]
           simp only [List.all_cons]
           rw [h2]
           simp [StreamEvent.isTerminal]
         · rw [List.getLast?_cons_cons]
           exact h3)

/-! ### C3 and C9: the session store (spec-modelled) -/

/-- The server-held session: `session_id`, `mode`, `history` and the user
attributes follow class `Session` (docs/ARCHITECTURE.md §2.4), with `mode`
unset (`none`) until the first classification and the artifact index
`generated_artifacts` of spec §3. -/
structure Session where
  session_id : String
  mode : Option String
  history : List Msg
  generated_artifacts : List String
  user_attributes : List (String × String)
  created_at : Nat
  updated_at : Nat
deriving DecidableEq

/-- Modelled from the spec: the clear endpoint of the backend session store
(api/main.py, absent from the enumerable source), invoked by `handleClear`
via `POST /api/session/:id/clear`; spec §6: "resets `history`,
`generated_artifacts`, and `mode` but keeps `attributes`". -/
def clear_session (s : Session) : Session :=
  { s with history := [], generated_artifacts := [], mode := none }

/-- C3: `clear_session` empties the history and the generated-artifact
list and resets the mode to its unset state, while the user attributes (and
the session identity and timestamps) are left unchanged. -/
theorem clear_session_resets_and_keeps_attributes (s : Session) :
    (clear_session s).history = [] ∧
    (clear_session s).generated_artifacts = [] ∧
    (clear_session s).mode = none ∧
    (clear_session s).user_attributes = s.user_attributes ∧
    (clear_session s).session_id = s.session_id ∧
    (clear_session s).created_at = s.created_at :=
  ⟨rfl, rfl, rfl, rfl, rfl, rfl⟩

/-- C9: `clear_session` is idempotent — a second call is a no-op — and
after any call the history and the generated-artifact list are empty. -/
theorem clear_session_idempotent (s : Session) :
    clear_session (clear_session s) = clear_session s ∧
    (clear_session s).history = [] ∧
    (clear_session s).generated_artifacts = [] :=
  ⟨rfl, rfl, rfl⟩

end PriceTransfer
